import Mathlib

/-!
Verification of the fastloop runtime core (reactor, task executor, timer wheel,
I/O handles) against its specification.  Each Rust operation named in a claim is
shallowly embedded below; machine-integer casts are made explicit as `% 2 ^ 64`,
and operations that can panic in Rust return `Option` (with `none` for the panic).
-/

namespace Fastloop

/-! ### Slab (the slab crate, as used for the reactor's waker table)

A slab is a vector of slots, each either occupied or vacant.  Only the operations
the claims need are embedded: lookup and removal.  `slab::Slab::remove` panics
when the addressed slot is vacant; the panic is modelled as `none`. -/

/-- A slab of entries: slot k holds `some v` when occupied, `none` when vacant. -/
abbrev Slab (α : Type) : Type := List (Option α)

/-- Slab lookup (`self.wakers.get(key)`): `none` for a vacant or out-of-range slot. -/
def Slab.get {α : Type} (s : Slab α) (k : Nat) : Option α :=
  s.getD k none

/-- `slab::Slab::remove(key)`: vacates slot `key` and returns its value; panics
(modelled as `none`) when the slot is vacant. -/
def Slab.remove {α : Type} (s : Slab α) (k : Nat) : Option (Slab α × α) :=
  match s.getD k none with
  | some v => some (s.set k none, v)
  | none => none

/-- The reactor's waker table (`ReactorState.wakers` in src/src/reactor.rs).
A stored waker is identified by the id of the task it wakes. -/
structure ReactorState where
  wakers : Slab Nat
deriving DecidableEq

/-- `Reactor::deregister` (src/src/reactor.rs): `state.wakers.remove(token.0)`.
`none` models the panic of `slab::Slab::remove` on a vacant slot. -/
def Reactor.deregister (st : ReactorState) (token : Nat) : Option ReactorState :=
  (Slab.remove st.wakers token).map (fun p => { wakers := p.1 })

/-! ### Task wake-handle vtable (src/src/task.rs)

The vtable functions are embedded by their net effect on the task's strong
reference count and on the number of `Task::schedule` calls performed.  Each
definition follows its Rust body line by line: `Arc::from_raw` takes back
ownership of one existing reference (count unchanged), `clone` increments,
`mem::forget` suppresses the drop of the value it is given, and a local `Arc`
still owned when the function returns is dropped, decrementing the count. -/

/-- Net effect of one vtable call: the strong reference count afterwards and the
number of `Task::schedule` calls made during the call. -/
structure WakeEffect where
  refcount : Nat
  schedules : Nat
deriving DecidableEq

/-- `Task::clone_waker` (src/src/task.rs): `let arc = Arc::from_raw(ptr)` (count
unchanged), `mem::forget(arc.clone())` (increment, clone leaked), then the local
`arc` goes out of scope and is dropped (decrement).  `rc` is the strong count
before the call. -/
def Task.clone_waker (rc : Nat) : WakeEffect :=
  let afterFromRaw := rc
  let afterForgetClone := afterFromRaw + 1
  let afterDropLocal := afterForgetClone - 1
  { refcount := afterDropLocal, schedules := 0 }

/-- `Task::wake` (src/src/task.rs): `Arc::from_raw`, `arc.schedule()`, then the
local `arc` is dropped at end of scope (decrement). -/
def Task.wake (rc : Nat) : WakeEffect :=
  { refcount := rc - 1, schedules := 1 }

/-- `Task::wake_by_ref` (src/src/task.rs): `Arc::from_raw`, `arc.schedule()`,
then `mem::forget(arc)` leaves the count unchanged. -/
def Task.wake_by_ref (rc : Nat) : WakeEffect :=
  { refcount := rc, schedules := 1 }

/-- `Task::drop_waker` (src/src/task.rs): `Arc::from_raw` then drop (decrement). -/
def Task.drop_waker (rc : Nat) : WakeEffect :=
  { refcount := rc - 1, schedules := 0 }

/-! ### Executor state (reactor waker table + ready queue + scheduled flags)

src/src/reactor.rs's `run` and `spawn` call `Task::poll_tasks`, `Task::spawn`
and `Reactor::spawn_task`/`task_queue`, none of which are defined under src;
the ready queue and its draining are therefore modelled from the spec, while
`Task::new`, `Task::schedule`, `Task::poll` and `Reactor::poll_events` are
embedded from their sources. -/

/-- Modelled from the spec: the executor's shared state.  `wakers` is the
reactor's waker table from src/src/reactor.rs; `queue` is the ready queue
(`Reactor.task_queue`, referenced by src/src/task.rs but not declared in src)
and `scheduled` the set of task ids whose `is_scheduled` flag is true.
`nextTask` allocates fresh task ids, modelling `Arc` allocation. -/
structure ExecState where
  wakers : Slab Nat
  queue : List Nat
  scheduled : List Nat
  nextTask : Nat
deriving DecidableEq

/-- `Task::new` (src/src/task.rs): creates a task whose `is_scheduled` flag is
`false` (`AtomicBool::new(false)`); the fresh id models the new `Arc`. -/
def Task.new (s : ExecState) : Nat × ExecState :=
  (s.nextTask, { s with nextTask := s.nextTask + 1 })

/-- `Task::schedule` (src/src/task.rs): if `is_scheduled.swap(true, AcqRel)`
returned `false`, push the task onto the ready queue (`reactor.spawn_task`). -/
def Task.schedule (t : Nat) (s : ExecState) : ExecState :=
  if t ∈ s.scheduled then s
  else { s with scheduled := t :: s.scheduled, queue := s.queue ++ [t] }

/-- `Task::poll` (src/src/task.rs): `is_scheduled.swap(false, Acquire)`; if it
was `false`, return without polling; otherwise poll the future once, its effect
on the state given by `body` (a `Ready` future's deregistration is part of that
effect).  The Bool reports whether the body was polled. -/
def Task.poll (body : Nat → ExecState → ExecState) (t : Nat) (s : ExecState) :
    Bool × ExecState :=
  if t ∈ s.scheduled then
    (true, body t { s with scheduled := s.scheduled.erase t })
  else
    (false, s)

/-- A future body that always returns `Pending` and performs no wakes. -/
def pendingBody : Nat → ExecState → ExecState := fun _ s => s

/-- `Reactor::poll_events` (src/src/reactor.rs): for each polled OS event, if a
waker is present at the event's token, call `waker.wake_by_ref()`, which is
`Task::wake_by_ref`, which calls `Task::schedule`.  The round's OS event batch
is supplied as data. -/
def Reactor.poll_events (batch : List Nat) (s : ExecState) : ExecState :=
  batch.foldl
    (fun s tok =>
      match Slab.get s.wakers tok with
      | some t => Task.schedule t s
      | none => s)
    s

/-- Modelled from the spec: `Task::poll_tasks` is called by `Reactor::run` but
is not defined under src.  Spec: drains the ready queue, polling each drained
task once (`Task::poll` clears the scheduled flag first); returns true if any
task was polled, false if the queue was empty. -/
def Task.poll_tasks (body : Nat → ExecState → ExecState) (s : ExecState) :
    Bool × ExecState :=
  (!s.queue.isEmpty,
    s.queue.foldl (fun s t => (Task.poll body t s).2) { s with queue := [] })

/-- `Reactor::run` (src/src/reactor.rs): loops, each round calling
`poll_events(Some(100))` and then `Task::poll_tasks()`; breaks out of the loop
exactly when `poll_tasks` returns false.  `fuel` bounds the number of rounds
observed; `none` means run had not yet returned within `fuel` rounds. -/
def Reactor.run (body : Nat → ExecState → ExecState) :
    Nat → List (List Nat) → ExecState → Option ExecState
  | 0, _, _ => none
  | fuel + 1, batches, s =>
    let s1 := Reactor.poll_events (batches.headD []) s
    let r := Task.poll_tasks body s1
    if r.1 then Reactor.run body fuel batches.tail r.2 else some r.2

/-- Modelled from the spec: `Task::spawn` is called by `Reactor::spawn`
(src/src/reactor.rs) but is not defined under src.  Spec: creates a task
(`Task::new`, whose flag starts false), marks it scheduled and pushes it onto
the ready queue — exactly the effect of `Task::schedule` on a fresh task. -/
def Task.spawn (s : ExecState) : Nat × ExecState :=
  let r := Task.new s
  (r.1, Task.schedule r.1 r.2)

/-! ### Timer wheel (src/src/timer.rs) -/

/-- `WHEEL_SIZE` (src/src/timer.rs). -/
def WHEEL_SIZE : Nat := 256

/-- `SLOT_DURATION_MS` (src/src/timer.rs). -/
def SLOT_DURATION_MS : Nat := 10

/-- `TimerEntry` (src/src/timer.rs): id, expiration slot, waker (identified by a
Nat), cancelled flag. -/
structure TimerEntry where
  id : Nat
  expiration_slot : Nat
  waker : Nat
  canceled : Bool
deriving DecidableEq

/-- `TimerWheel` (src/src/timer.rs): cursor (`AtomicU64`), 256 slot queues
(push at the back, pop from the front), id counter. -/
structure TimerWheel where
  current_slot : Nat
  slots : List (List TimerEntry)
  next_id : Nat
deriving DecidableEq

/-- `TimerWheel::new` (src/src/timer.rs): cursor 0, 256 empty slots, next id 1. -/
def TimerWheel.new : TimerWheel :=
  { current_slot := 0, slots := List.replicate WHEEL_SIZE [], next_id := 1 }

/-- `TimerWheel::schedule` (src/src/timer.rs): `ticks = (delay.as_millis() /
SLOT_DURATION_MS as u128) as usize` (the cast truncates modulo `2 ^ 64`), the
entry goes into slot `(current_slot + ticks) % WHEEL_SIZE` with a fresh id and
`canceled = false`.  Returns the id, the shared entry, and the updated wheel. -/
def TimerWheel.schedule (w : TimerWheel) (delay_ms wakerId : Nat) :
    Nat × TimerEntry × TimerWheel :=
  let ticks := delay_ms / SLOT_DURATION_MS % 2 ^ 64
  let current_slot := w.current_slot
  let expiration_slot := (current_slot + ticks) % WHEEL_SIZE
  let id := w.next_id
  let entry : TimerEntry :=
    { id := id, expiration_slot := expiration_slot, waker := wakerId,
      canceled := false }
  (id, entry,
    { w with
        next_id := w.next_id + 1,
        slots := w.slots.set expiration_slot
          (w.slots.getD expiration_slot [] ++ [entry]) })

/-- `TimerEntry::cancel` (src/src/timer.rs): `canceled.store(true)`.  The entry
is shared (`Arc`) between the caller's handle and its slot queue, so the copy
inside the wheel — identified by its id — observes the store. -/
def TimerWheel.cancel (w : TimerWheel) (id : Nat) : TimerWheel :=
  { w with
      slots := w.slots.map (fun slot =>
        slot.map (fun e => if e.id = id then { e with canceled := true } else e)) }

/-- `TimerWheel::tick` (src/src/timer.rs): `fetch_update` stores
`(val + 1) % WHEEL_SIZE` (u64 arithmetic, hence the `% 2 ^ 64`) and yields the
previous value; the slot at the previous value is popped to empty, and every
popped entry whose cancelled flag is false fires its waker.  Returns the new
wheel and the list of entries fired. -/
def TimerWheel.tick (w : TimerWheel) : TimerWheel × List TimerEntry :=
  let current_slot := w.current_slot
  let slot := w.slots.getD current_slot []
  ({ w with
      current_slot := (w.current_slot + 1) % 2 ^ 64 % WHEEL_SIZE,
      slots := w.slots.set current_slot [] },
    slot.filter (fun e => !e.canceled))

/-- Iterated ticks, accumulating every entry fired across the sequence. -/
def TimerWheel.tickN : Nat → TimerWheel → TimerWheel × List TimerEntry
  | 0, w => (w, [])
  | n + 1, w =>
    let r := TimerWheel.tick w
    let r2 := TimerWheel.tickN n r.1
    (r2.1, r.2 ++ r2.2)

/-- Every copy of entry `id` held anywhere in the wheel has its cancelled flag
set. -/
def AllCancelled (w : TimerWheel) (id : Nat) : Prop :=
  ∀ slot ∈ w.slots, ∀ e ∈ slot, e.id = id → e.canceled = true

/-! ### I/O handles (src/src/io.rs) -/

/-- One observable call to `poller().registry()` made by `FastSocket::reregister`. -/
structure PollerCall where
  token : Nat
  interest : Nat
deriving DecidableEq

/-- `FastSocket` (src/src/io.rs): the TCP stream (abstract), the optional token,
and (implicitly) the reactor reference. -/
structure FastSocket where
  stream : Nat
  token : Option Nat
deriving DecidableEq

/-- `FastSocket::reregister` (src/src/io.rs): `if let Some(token) = self.token`
call `registry().reregister(stream, token, interest)` and propagate its error
with `?`; in every other case fall through to `Ok(())`.  The registry call's
outcome is supplied by `registry`; the calls actually performed are returned
alongside the (unchanged) socket. -/
def FastSocket.reregister (registry : Nat → Nat → Except Nat Unit)
    (sock : FastSocket) (interest : Nat) :
    Except Nat (FastSocket × List PollerCall) :=
  match sock.token with
  | some token =>
    match registry token interest with
    | Except.ok _ => Except.ok (sock, [{ token := token, interest := interest }])
    | Except.error e => Except.error e
  | none => Except.ok (sock, [])

/-! ### Helper lemmas -/

/-- Reading back the slot just written, in range, yields the written value. -/
theorem getD_set_self {α : Type} (l : List α) (i : Nat) (x d : α)
    (h : i < l.length) : (l.set i x).getD i d = x := by
  induction l generalizing i with
  | nil => simp at h
  | cons a t ih =>
    cases i with
    | zero => rfl
    | succ j => simpa using ih j (by simpa using h)

/-- Membership after `List.set`: the element was already present or is the one
written. -/
theorem mem_set_or_eq {α : Type} (l : List α) (i : Nat) (x a : α)
    (h : a ∈ l.set i x) : a ∈ l ∨ a = x := by
  induction l generalizing i with
  | nil => simp [List.set] at h
  | cons b t ih =>
    cases i with
    | zero =>
      rcases List.mem_cons.mp h with h2 | h2
      · right; exact h2
      · left; exact List.mem_cons_of_mem b h2
    | succ j =>
      rcases List.mem_cons.mp h with h2 | h2
      · left; exact h2 ▸ List.mem_cons_self b t
      · rcases ih j h2 with h3 | h3
        · left; exact List.mem_cons_of_mem b h3
        · right; exact h3

/-- A filter whose predicate fails on every element is empty. -/
theorem filter_eq_nil_of_forall {α : Type} (p : α → Bool) (l : List α)
    (h : ∀ a ∈ l, p a = false) : l.filter p = [] := by
  induction l with
  | nil => rfl
  | cons a t ih =>
    simp only [List.filter_cons, h a (List.mem_cons_self a t), Bool.false_eq_true,
      if_false]
    exact ih (fun b hb => h b (List.mem_cons_of_mem a hb))

/-- `getD` with default `[]` yields a member of the list or `[]`. -/
theorem getD_mem_or_nil {α : Type} (l : List (List α)) (i : Nat) :
    l.getD i [] ∈ l ∨ l.getD i [] = [] := by
  induction l generalizing i with
  | nil => right; rfl
  | cons a t ih =>
    cases i with
    | zero => left; exact List.mem_cons_self a t
    | succ j =>
      rcases ih j with h | h
      · left; exact List.mem_cons_of_mem a (by simpa using h)
      · right; simpa using h

/-! ### Claim theorems -/

/-- C1: `Reactor::deregister` on a token whose slot is vacant is claimed to be a
no-op; in the code `slab::Slab::remove` panics on a vacant slot, so the second
of two consecutive deregistrations of token 0 panics (`none`) instead of
returning normally.  The first conjunct evaluates the double-deregister, the
second shows the first call alone succeeded and vacated the slot. -/
theorem deregister_twice_panics :
    (Reactor.deregister { wakers := [some 5] } 0).bind
      (fun st => Reactor.deregister st 0) = none ∧
    Reactor.deregister { wakers := [some 5] } 0 = some { wakers := [none] } := by
  decide

/-- C2: the wake-handle vtable's reference-count discipline.  `Task::wake`,
`Task::wake_by_ref` and `Task::drop_waker` behave as claimed, but
`Task::clone_waker` leaves the strong count unchanged (the `Arc` rebuilt by
`Arc::from_raw` is dropped at end of scope, cancelling the forgotten clone)
instead of incrementing it by one, even though a second wake handle aliasing the
task now exists. -/
theorem clone_waker_does_not_increment :
    (Task.clone_waker 1).refcount = 1 ∧ (Task.clone_waker 1).refcount ≠ 1 + 1 ∧
    Task.wake 1 = { refcount := 0, schedules := 1 } ∧
    Task.wake_by_ref 1 = { refcount := 1, schedules := 1 } ∧
    Task.drop_waker 1 = { refcount := 0, schedules := 0 } := by
  decide

/-- C6: one `TimerWheel::tick` call advances the cursor from `c` to
`(c + 1) % 256`. -/
theorem tick_advances_cursor (w : TimerWheel) :
    (TimerWheel.tick w).1.current_slot = (w.current_slot + 1) % 256 := by
  simp only [TimerWheel.tick, WHEEL_SIZE]
  exact Nat.mod_mod_of_dvd _ (by norm_num)

/-- C8: `TimerWheel::schedule` with delay `delay_ms` milliseconds at cursor `c`
places the entry in slot `(c + delay_ms / 10) % 256`; delays of one revolution
(2560 ms) or more wrap around by this same formula. -/
theorem schedule_slot_formula (w : TimerWheel) (delay_ms wakerId : Nat) :
    (TimerWheel.schedule w delay_ms wakerId).2.1.expiration_slot =
      (w.current_slot + delay_ms / 10) % 256 := by
  simp only [TimerWheel.schedule, WHEEL_SIZE, SLOT_DURATION_MS]
  generalize delay_ms / 10 = t
  omega

/-- C10: `FastSocket::reregister` on a socket whose token is absent returns
`Ok(())` without performing any poller registry call and leaves the socket
(including its absent token) unchanged, whatever the registry would have
answered. -/
theorem reregister_without_token_is_noop (registry : Nat → Nat → Except Nat Unit)
    (st interest : Nat) :
    FastSocket.reregister registry { stream := st, token := none } interest =
      Except.ok ({ stream := st, token := none }, []) := rfl

/-- `Task::schedule` on an already-scheduled task is the identity: the atomic
swap returns `true`, so nothing is pushed. -/
theorem schedule_fix (t : Nat) (s : ExecState) (h : t ∈ s.scheduled) :
    Task.schedule t s = s := by
  simp [Task.schedule, h]

/-- Iterating `Task::schedule` on an already-scheduled task changes nothing. -/
theorem schedule_iterate_fix (t : Nat) (m : Nat) :
    ∀ s : ExecState, t ∈ s.scheduled → (Task.schedule t)^[m] s = s := by
  induction m with
  | zero => intro s _; rfl
  | succ k ih =>
    intro s h
    rw [Function.iterate_succ_apply, schedule_fix t s h, ih s h]

/-- C3: the claim says `Reactor::run` returns only once the ready queue and the
waker table are both empty.  In the code `run` breaks as soon as
`Task::poll_tasks` reports an empty ready queue and never consults the waker
table: from a state with one live waker entry at token 0, an empty queue and no
OS events, `run` returns after a single round, with the waker table still
holding its entry. -/
theorem run_returns_with_live_waker :
    Reactor.run pendingBody 1 []
        { wakers := [some 0], queue := [], scheduled := [], nextTask := 1 } =
      some { wakers := [some 0], queue := [], scheduled := [], nextTask := 1 } ∧
    Slab.get ([some 0] : Slab Nat) 0 = some 0 := by
  decide

/-- C4: `Task::spawn` (creation via `Task::new`, then `Task::schedule`) leaves
the new task's scheduled flag true and pushes the task onto the ready queue
before returning, provided the fresh task id is not already marked scheduled. -/
theorem spawn_schedules_and_enqueues (s : ExecState)
    (h : s.nextTask ∉ s.scheduled) :
    (Task.spawn s).1 ∈ (Task.spawn s).2.scheduled ∧
    (Task.spawn s).2.queue = s.queue ++ [(Task.spawn s).1] := by
  constructor
  · simp [Task.spawn, Task.new, Task.schedule, h]
  · simp [Task.spawn, Task.new, Task.schedule, h]

/-- Witness for C4 at the empty initial state. -/
theorem spawn_schedules_and_enqueues_witness :
    (Task.spawn { wakers := [], queue := [], scheduled := [], nextTask := 0 }).1 ∈
      (Task.spawn { wakers := [], queue := [], scheduled := [], nextTask := 0 }).2.scheduled ∧
    (Task.spawn ({ wakers := [], queue := [], scheduled := [], nextTask := 0 } :
        ExecState)).2.queue =
      [] ++ [(Task.spawn { wakers := [], queue := [], scheduled := [], nextTask := 0 }).1] :=
  spawn_schedules_and_enqueues
    { wakers := [], queue := [], scheduled := [], nextTask := 0 } (by decide)

/-- C5: wake coalescing.  Any `n ≥ 1` consecutive `Task::schedule` calls on a
task whose scheduled flag is clear enqueue the task exactly once (the queue
gains exactly one entry), after which draining polls its body exactly once: the
first `Task::poll` runs the body, and a second `Task::poll` (with no wake in
between, body forever `Pending`) finds the flag clear and does not. -/
theorem schedule_coalesces (t n : Nat) (s : ExecState)
    (h1 : 1 ≤ n) (h2 : t ∉ s.scheduled) :
    ((Task.schedule t)^[n] s).queue = s.queue ++ [t] ∧
    (Task.poll pendingBody t ((Task.schedule t)^[n] s)).1 = true ∧
    (Task.poll pendingBody t
      (Task.poll pendingBody t ((Task.schedule t)^[n] s)).2).1 = false := by
  obtain ⟨k, rfl⟩ : ∃ k, n = k + 1 := ⟨n - 1, by omega⟩
  have hstep : Task.schedule t s =
      { s with scheduled := t :: s.scheduled, queue := s.queue ++ [t] } := by
    simp [Task.schedule, h2]
  have hfix : (Task.schedule t)^[k + 1] s =
      { s with scheduled := t :: s.scheduled, queue := s.queue ++ [t] } := by
    rw [Function.iterate_succ_apply, hstep]
    exact schedule_iterate_fix t k _ (List.mem_cons_self t s.scheduled)
  rw [hfix]
  refine ⟨rfl, by simp [Task.poll], ?_⟩
  simp [Task.poll, pendingBody, List.erase_cons_head, h2]

/-- Witness for C5: two consecutive schedules of task 0 from the empty state. -/
theorem schedule_coalesces_witness :
    ((Task.schedule 0)^[2]
        ({ wakers := [], queue := [], scheduled := [], nextTask := 1 } :
          ExecState)).queue = [] ++ [0] ∧
    (Task.poll pendingBody 0 ((Task.schedule 0)^[2]
        ({ wakers := [], queue := [], scheduled := [], nextTask := 1 } :
          ExecState))).1 = true ∧
    (Task.poll pendingBody 0
      (Task.poll pendingBody 0 ((Task.schedule 0)^[2]
        ({ wakers := [], queue := [], scheduled := [], nextTask := 1 } :
          ExecState))).2).1 = false :=
  schedule_coalesces 0 2
    { wakers := [], queue := [], scheduled := [], nextTask := 1 }
    (by decide) (by decide)

/-- `TimerWheel::cancel` marks every copy of the entry cancelled. -/
theorem cancel_allCancelled (w : TimerWheel) (id : Nat) :
    AllCancelled (TimerWheel.cancel w id) id := by
  intro slot hslot e he hid
  simp only [TimerWheel.cancel, List.mem_map] at hslot
  obtain ⟨slot0, _, rfl⟩ := hslot
  simp only [List.mem_map] at he
  obtain ⟨e0, _, rfl⟩ := he
  by_cases h : e0.id = id
  · simp [h]
  · rw [if_neg h] at hid
    exact absurd hid h

/-- A tick fires no entry of a cancelled id. -/
theorem tick_no_cancelled_fired (w : TimerWheel) (id : Nat)
    (h : AllCancelled w id) :
    (TimerWheel.tick w).2.filter (fun e => e.id == id) = [] := by
  apply filter_eq_nil_of_forall
  intro e he
  simp only [TimerWheel.tick, List.mem_filter] at he
  obtain ⟨hmem, hnc⟩ := he
  rcases getD_mem_or_nil w.slots w.current_slot with hslot | hslot
  · by_cases hid : e.id = id
    · have := h _ hslot e hmem hid
      rw [this] at hnc
      simp at hnc
    · simpa using hid
  · rw [hslot] at hmem
    simp at hmem

/-- A tick leaves every copy of a fully-cancelled id cancelled: the drained slot
is emptied and the others are untouched. -/
theorem tick_preserves_allCancelled (w : TimerWheel) (id : Nat)
    (h : AllCancelled w id) : AllCancelled (TimerWheel.tick w).1 id := by
  intro slot hslot e he hid
  rcases mem_set_or_eq _ _ _ _ hslot with hmem | rfl
  · exact h slot hmem e he hid
  · simp at he

/-- No tick in a sequence fires an entry of a fully-cancelled id. -/
theorem tickN_no_cancelled_fired (id n : Nat) :
    ∀ w : TimerWheel, AllCancelled w id →
      (TimerWheel.tickN n w).2.filter (fun e => e.id == id) = [] := by
  induction n with
  | zero => intro w _; rfl
  | succ m ih =>
    intro w h
    simp only [TimerWheel.tickN, List.filter_append]
    rw [tick_no_cancelled_fired w id h,
      ih (TimerWheel.tick w).1 (tick_preserves_allCancelled w id h)]
    rfl

/-- C7: a cancelled timer never invokes its waker.  After `TimerEntry::cancel`
on entry `id`, no tick in any subsequent sequence of ticks — in particular the
one that drains the entry's slot — fires an entry with that id. -/
theorem cancelled_timer_never_fires (w : TimerWheel) (id n : Nat) :
    ((TimerWheel.tickN n (TimerWheel.cancel w id)).2.filter
      (fun e => e.id == id)) = [] :=
  tickN_no_cancelled_fired id n (TimerWheel.cancel w id) (cancel_allCancelled w id)

/-- C9: an entry scheduled with delay 0 lands in the cursor's own slot and is
fired by the very next tick (given the wheel's structural invariants: 256 slots
and an in-range cursor). -/
theorem delay_zero_fires_next_tick (w : TimerWheel) (wakerId : Nat)
    (hlen : w.slots.length = 256) (hcur : w.current_slot < 256) :
    (TimerWheel.schedule w 0 wakerId).2.1 ∈
      (TimerWheel.tick (TimerWheel.schedule w 0 wakerId).2.2).2 := by
  have hs : TimerWheel.schedule w 0 wakerId =
      (w.next_id,
        { id := w.next_id, expiration_slot := w.current_slot, waker := wakerId,
          canceled := false },
        { w with
            next_id := w.next_id + 1,
            slots := w.slots.set w.current_slot
              (w.slots.getD w.current_slot [] ++
                [{ id := w.next_id, expiration_slot := w.current_slot,
                   waker := wakerId, canceled := false }]) }) := by
    simp [TimerWheel.schedule, SLOT_DURATION_MS, WHEEL_SIZE,
      Nat.mod_eq_of_lt hcur]
  rw [hs]
  simp only [TimerWheel.tick]
  rw [getD_set_self _ _ _ _ (by rw [hlen]; exact hcur)]
  refine List.mem_filter.mpr ⟨List.mem_append_right _ ?_, rfl⟩
  exact List.mem_singleton.mpr rfl

/-- Witness for C9 on the freshly constructed wheel. -/
theorem delay_zero_fires_next_tick_witness :
    (TimerWheel.schedule TimerWheel.new 0 7).2.1 ∈
      (TimerWheel.tick (TimerWheel.schedule TimerWheel.new 0 7).2.2).2 :=
  delay_zero_fires_next_tick TimerWheel.new 7
    (by simp only [TimerWheel.new, List.length_replicate, WHEEL_SIZE]) (by decide)

end Fastloop
